import Mathlib

/-!
Verification development for the sandboxed code execution and
test-evaluation subsystem of the ai-code-quality-analyzer repository.

The repository snapshot contains the frontend (React) sources and the
project documentation, but the backend execution core
(`backend/app/services/sandbox_executor.py`) is not included.  The
definitions below therefore fall in two groups:

* the execution core (registry, provisioner, build step, runner,
  comparator, aggregator) is modelled from the specification document,
  each such definition carrying a `Modelled from the spec:` doc comment;
* the frontend failure-handling path (`formatApiError`,
  `handleRunTests` / `runExecute` catch payloads) is embedded directly
  from `frontend/src/services/api.js`, `frontend/src/pages/Dashboard.jsx`
  and `frontend/src/context/AnalyzerContext.jsx`.
-/

namespace Sandbox

/-- Modelled from the spec: a `TestCase` is `input` (may be empty) and
`expected_output`, both strings (spec section 3, DATA MODEL). -/
structure TestCase where
  input : String
  expected_output : String
deriving DecidableEq, Repr

/-- Modelled from the spec: a `TestCaseResult` echoes `input` and
`expected_output`, plus `actual_output`, `passed`, and a nullable
`error` classification (spec section 3). -/
structure TestCaseResult where
  input : String
  expected_output : String
  actual_output : String
  passed : Bool
  error : Option String
deriving DecidableEq, Repr

/-- Modelled from the spec: top-level report status, `success` or
`error` (spec section 3). -/
inductive Status where
  | success
  | error
deriving DecidableEq, Repr

/-- Modelled from the spec: the `ExecutionReport` returned by the core
(spec section 3): status, total wall time, ordered per-case results,
combined streams, and a top-level error message when status = error. -/
structure ExecutionReport where
  status : Status
  execution_time_ms : Nat
  results : List TestCaseResult
  stdout : String
  stderr : String
  error : Option String
deriving DecidableEq, Repr

/-! ## Output Comparator (spec section 4.5) -/

/-- Modelled from the spec: strip a single trailing newline from a
character list — only one, and only at the very end. -/
def stripOneTrailingNewline (cs : List Char) : List Char :=
  if cs.getLast? = some '\n' then cs.dropLast else cs

/-- Modelled from the spec: `compare(actual, expected)` compares after
stripping a single trailing newline from each side (spec section 4.5);
internal whitespace differences remain real mismatches. -/
def compareOutputs (actual expected : String) : Bool :=
  stripOneTrailingNewline actual.data = stripOneTrailingNewline expected.data

/-! ## Language Runtime Registry (spec sections 2, 4.1) -/

/-- Modelled from the spec: a `LanguageSpec` entry of the Runtime
Registry — identifier, compiled flag, canonical source file name,
compile command (nullable), run command and toolchain image
(spec section 3 and `SANDBOX_EXECUTION.md`). -/
structure LanguageSpec where
  identifier : String
  isCompiled : Bool
  sourceFileName : String
  compileCommand : Option String
  runCommand : String
  image : String
deriving DecidableEq, Repr

/-- Modelled from the spec: the registry entry for python (interpreted,
`SANDBOX_EXECUTION.md`). -/
def pythonSpec : LanguageSpec :=
  { identifier := "python", isCompiled := false, sourceFileName := "main.py",
    compileCommand := none, runCommand := "python main.py",
    image := "python:3.11-slim" }

/-- Modelled from the spec: the registry entry for c (compiled,
`SANDBOX_EXECUTION.md`). -/
def cSpec : LanguageSpec :=
  { identifier := "c", isCompiled := true, sourceFileName := "main.c",
    compileCommand := some "gcc main.c -o main", runCommand := "./main",
    image := "gcc:latest" }

/-- Modelled from the spec: the registry entry for cpp (compiled,
`SANDBOX_EXECUTION.md`). -/
def cppSpec : LanguageSpec :=
  { identifier := "cpp", isCompiled := true, sourceFileName := "main.cpp",
    compileCommand := some "g++ main.cpp -o main", runCommand := "./main",
    image := "gcc:latest" }

/-- Modelled from the spec: the registry entry for java (compiled,
`SANDBOX_EXECUTION.md`). -/
def javaSpec : LanguageSpec :=
  { identifier := "java", isCompiled := true, sourceFileName := "Main.java",
    compileCommand := some "javac Main.java", runCommand := "java Main",
    image := "openjdk:17-slim" }

/-- Modelled from the spec: the static registry table.  The executable
languages are python, c, cpp and java (`SANDBOX_EXECUTION.md`,
`QUICKSTART.md` feature table: javascript and go are analyzable but not
executable). -/
def registry : List LanguageSpec :=
  [pythonSpec, cSpec, cppSpec, javaSpec]

/-- Modelled from the spec: `resolve(language) -> LanguageSpec`, failing
(with `UnsupportedLanguage`, i.e. `none`) when the identifier is not in
the registry (spec section 4.1). -/
def resolve (language : String) : Option LanguageSpec :=
  registry.find? (fun s => s.identifier = language)

/-! ## Isolation Environment Provisioner (spec sections 4.2, 8) -/

/-- Modelled from the spec: resource configuration of an environment —
the per-invocation wall-clock timeout (default 5000 ms), memory cap and
CPU share (spec section 4.2, `SANDBOX_EXECUTION.md` table). -/
structure SandboxConfig where
  timeoutMs : Nat
  memoryLimitMB : Nat
  cpuShare : Nat
deriving DecidableEq, Repr

/-- Modelled from the spec: the default configuration (5 s timeout,
128 MB, half a core, expressed in percent). -/
def defaultConfig : SandboxConfig :=
  { timeoutMs := 5000, memoryLimitMB := 128, cpuShare := 50 }

/-- Modelled from the spec: the observable state of the Provisioner,
used to track the environment-lifecycle invariants of section 8 —
how many environments were ever created, which identities are currently
alive, and how many destroy operations actually tore one down. -/
structure ProvState where
  created : Nat
  alive : List Nat
  destroyCount : Nat
deriving DecidableEq, Repr

/-- Modelled from the spec: `create(resource_config) -> Environment` —
returns a fresh environment identity and registers it alive
(spec section 4.2). -/
def ProvState.create (st : ProvState) : Nat × ProvState :=
  (st.created,
   { created := st.created + 1, alive := st.created :: st.alive,
     destroyCount := st.destroyCount })

/-- Modelled from the spec: `destroy(Environment)` — idempotent, safe to
call multiple times (spec section 4.2); a destroy of an environment that
is no longer alive is a no-op. -/
def ProvState.destroy (st : ProvState) (envId : Nat) : ProvState :=
  if envId ∈ st.alive then
    { created := st.created, alive := st.alive.filter (fun x => x ≠ envId),
      destroyCount := st.destroyCount + 1 }
  else st

/-- Modelled from the spec: the outcome of one `run` invocation inside
the environment — normal completion with exit code, captured streams and
duration, or a `Timeout` kill (with whatever stderr was captured before
the kill), or a `ResourceExceeded` kill, or the environment having
become unusable (`ProvisioningError`) (spec sections 4.2, 7). -/
inductive RunOutcome where
  | done (exitCode : Nat) (stdout : String) (stderr : String) (durationMs : Nat)
  | timeout (partialStderr : String)
  | resourceExceeded (durationMs : Nat)
  | provisioningFailure
deriving DecidableEq, Repr

/-- Modelled from the spec: the wall-clock duration attributed to one
invocation.  A timed-out invocation is killed at the configured
per-invocation timeout; an unusable environment consumes no budget. -/
def outcomeDuration (cfg : SandboxConfig) : RunOutcome → Nat
  | .done _ _ _ d => d
  | .timeout _ => cfg.timeoutMs
  | .resourceExceeded d => d
  | .provisioningFailure => 0

/-- Modelled from the spec: an execution behavior — what the sandbox
observes when it provisions the environment, runs the build step, and
runs the i-th test case.  This abstracts the submitted program and the
Docker backend; `executeSubmission` is deterministic given a behavior. -/
structure Behavior where
  provisionOk : Bool
  buildOutcome : RunOutcome
  runOutcome : Nat → RunOutcome

/-! ## Test Case Runner (spec section 4.4) -/

/-- Modelled from the spec: the systemic error recorded on every
remaining test case once the environment has become unusable
(spec section 4.4). -/
def systemicMessage : String := "Environment provisioning failed"

/-- Modelled from the spec: the human-readable timeout classification
"Execution timed out after Nms" (spec section 4.4). -/
def timeoutMessage (cfg : SandboxConfig) : String :=
  "Execution timed out after " ++ toString cfg.timeoutMs ++ "ms"

/-- Modelled from the spec: the human-readable resource classification
(spec section 4.4). -/
def memoryMessage : String := "Memory limit exceeded"

/-- Modelled from the spec: the Runner + Comparator product for one test
case, together with the duration charged to it.  Normal exit 0 grades
the output through the Comparator; a non-zero exit is a `RuntimeError`
(failed, error = captured stderr); timeout and resource kills yield
`passed = false`, `actual_output = ""` and the classification message;
an unusable environment marks the case failed with the systemic error
(spec sections 4.4, 7). -/
def runCase (cfg : SandboxConfig) (tc : TestCase) :
    RunOutcome → TestCaseResult × Nat
  | .done exitCode stdout stderr d =>
      if exitCode = 0 then
        ({ input := tc.input, expected_output := tc.expected_output,
           actual_output := stdout,
           passed := compareOutputs stdout tc.expected_output,
           error := none }, d)
      else
        ({ input := tc.input, expected_output := tc.expected_output,
           actual_output := stdout, passed := false,
           error := some stderr }, d)
  | .timeout _ =>
      ({ input := tc.input, expected_output := tc.expected_output,
         actual_output := "", passed := false,
         error := some (timeoutMessage cfg) }, cfg.timeoutMs)
  | .resourceExceeded d =>
      ({ input := tc.input, expected_output := tc.expected_output,
         actual_output := "", passed := false,
         error := some memoryMessage }, d)
  | .provisioningFailure =>
      ({ input := tc.input, expected_output := tc.expected_output,
         actual_output := "", passed := false,
         error := some systemicMessage }, 0)

/-- Modelled from the spec: once a systemic failure occurred, the
remaining test cases are marked failed with the same systemic error
rather than re-attempted (spec section 4.4). -/
def systemicResult (tc : TestCase) (msg : String) : TestCaseResult :=
  { input := tc.input, expected_output := tc.expected_output,
    actual_output := "", passed := false, error := some msg }

/-- Modelled from the spec: whether an outcome renders the environment
unusable for the remaining test cases (spec section 4.4). -/
def nextSystemic : RunOutcome → Option String
  | .provisioningFailure => some systemicMessage
  | _ => none

/-- Modelled from the spec: the Test Case Runner loop — runs each test
case in order inside the same environment; `outcomes i` is what the
environment does for the i-th case of the remaining list; `sys` carries
the systemic error once the environment has become unusable
(spec section 4.4).  Returns each result with its charged duration. -/
def runCases (cfg : SandboxConfig) (outcomes : Nat → RunOutcome) :
    Option String → List TestCase → List (TestCaseResult × Nat)
  | _, [] => []
  | some msg, tc :: rest =>
      (systemicResult tc msg, 0) :: runCases cfg outcomes (some msg) rest
  | none, tc :: rest =>
      runCase cfg tc (outcomes 0) ::
        runCases cfg (fun k => outcomes (k + 1)) (nextSystemic (outcomes 0)) rest

/-! ## Result Aggregator and core entry point (spec sections 4.6, 6) -/

/-- Modelled from the spec: the report for an unsupported language —
immediate `status = error`, no environment created (spec section 7). -/
def unsupportedReport (language : String) : ExecutionReport :=
  { status := .error, execution_time_ms := 0, results := [],
    stdout := "", stderr := "",
    error := some ("Unsupported language: " ++ language) }

/-- Modelled from the spec: the report when the isolation environment
could not be created (spec section 7, `ProvisioningError`). -/
def provisioningErrorReport : ExecutionReport :=
  { status := .error, execution_time_ms := 0, results := [],
    stdout := "", stderr := "",
    error := some "Provisioning error: isolation environment could not be created" }

/-- Modelled from the spec: the report for a failed build step — built
immediately with `status = error`, the compiler's captured stderr
surfaced verbatim as the diagnostic, and `results` empty
(spec section 4.3). -/
def compileErrorReport (diagnostic : String) (buildDur : Nat) : ExecutionReport :=
  { status := .error, execution_time_ms := buildDur, results := [],
    stdout := "", stderr := diagnostic, error := some diagnostic }

/-- Modelled from the spec: the Result Aggregator for a run that reached
the Test Case Runner — `status = success` regardless of individual
pass/fail counts; `execution_time_ms` sums the build duration plus all
test-case durations; top-level streams are left empty since per-case
streams live in each result (spec section 4.6). -/
def aggregateReport (buildDur : Nat) (pairs : List (TestCaseResult × Nat)) :
    ExecutionReport :=
  { status := .success,
    execution_time_ms := pairs.foldl (fun acc p => acc + p.2) buildDur,
    results := pairs.map (fun p => p.1),
    stdout := "", stderr := "", error := none }

/-- Modelled from the spec: the core entry point
`executeSubmission(code, language, testCases) -> ExecutionReport`
(spec section 6), with the Provisioner state threaded explicitly.
Pipeline: registry lookup, environment creation, conditional build step
(short-circuit on failure), sequential test-case loop, aggregation, and
unconditional teardown before returning (spec section 2 data flow). -/
def executeSubmission (cfg : SandboxConfig) (B : Behavior)
    (code language : String) (testCases : List TestCase) (st : ProvState) :
    ExecutionReport × ProvState :=
  match resolve language with
  | none => (unsupportedReport language, st)
  | some sp =>
    if B.provisionOk then
      let c := st.create
      let envId := c.1
      let st1 := c.2
      if sp.isCompiled then
        match B.buildOutcome with
        | .done exitCode _ stderr d =>
            if exitCode = 0 then
              (aggregateReport d (runCases cfg B.runOutcome none testCases),
               st1.destroy envId)
            else
              (compileErrorReport stderr d, st1.destroy envId)
        | .timeout partialStderr =>
            (compileErrorReport partialStderr cfg.timeoutMs, st1.destroy envId)
        | .resourceExceeded d =>
            (compileErrorReport memoryMessage d, st1.destroy envId)
        | .provisioningFailure =>
            (provisioningErrorReport, st1.destroy envId)
      else
        (aggregateReport 0 (runCases cfg B.runOutcome none testCases),
         st1.destroy envId)
    else
      (provisioningErrorReport, st)

/-! ## Auxiliary predicates for the stated properties -/

/-- The build step succeeded: the compile invocation completed with exit
code 0 (spec section 4.3). -/
def buildSucceeds (B : Behavior) : Prop :=
  ∃ stdout stderr d, B.buildOutcome = RunOutcome.done 0 stdout stderr d

/-- The duration of the build step: the compile invocation's duration
for a compiled language, 0 when no build occurs (spec section 4.6). -/
def buildDuration (cfg : SandboxConfig) (sp : LanguageSpec) (B : Behavior) : Nat :=
  if sp.isCompiled then outcomeDuration cfg B.buildOutcome else 0

/-- Two invocation outcomes that agree on everything observable except
wall-clock timing: same completion kind, same exit code and same
captured streams, durations free. -/
def RunOutcome.sameModuloTiming : RunOutcome → RunOutcome → Prop
  | .done e1 o1 r1 _, .done e2 o2 r2 _ => e1 = e2 ∧ o1 = o2 ∧ r1 = r2
  | .timeout _, .timeout _ => True
  | .resourceExceeded _, .resourceExceeded _ => True
  | .provisioningFailure, .provisioningFailure => True
  | _, _ => False

/-- Two executions of the same deterministic submission: provisioning
behaves the same, the build step and every test case complete the same
way, and only durations may differ between the two runs. -/
def Behavior.sameModuloTiming (B1 B2 : Behavior) : Prop :=
  B1.provisionOk = B2.provisionOk ∧
  RunOutcome.sameModuloTiming B1.buildOutcome B2.buildOutcome ∧
  ∀ i, RunOutcome.sameModuloTiming (B1.runOutcome i) (B2.runOutcome i)

/-! ## Concrete sample data -/

/-- A successful invocation outcome used as sample data. -/
def okOutcome : RunOutcome := RunOutcome.done 0 "8" "" 3

/-- A behavior in which provisioning, build and every test case
succeed. -/
def behaviorOk : Behavior :=
  { provisionOk := true, buildOutcome := okOutcome, runOutcome := fun _ => okOutcome }

/-- A behavior whose build step fails with a compiler diagnostic. -/
def behaviorCompileFail : Behavior :=
  { provisionOk := true,
    buildOutcome := RunOutcome.done 1 "" "main.c:3:1: error: expected expression" 7,
    runOutcome := fun _ => okOutcome }

/-- A behavior in which the first test case times out and the rest
succeed. -/
def behaviorCaseTimeout : Behavior :=
  { provisionOk := true, buildOutcome := okOutcome,
    runOutcome := fun i => if i = 0 then RunOutcome.timeout "" else okOutcome }

/-- The initial Provisioner state: nothing created, nothing alive. -/
def st0 : ProvState := { created := 0, alive := [], destroyCount := 0 }

/-- A sample test case. -/
def tcA : TestCase := { input := "5 3", expected_output := "8" }

/-- A second sample test case. -/
def tcB : TestCase := { input := "2 2", expected_output := "4" }

/-- The same completion pattern as `behaviorOk` but with different
wall-clock durations — a second run of the same deterministic
submission. -/
def behaviorOkSlow : Behavior :=
  { provisionOk := true, buildOutcome := RunOutcome.done 0 "8" "" 42,
    runOutcome := fun _ => RunOutcome.done 0 "8" "" 42 }

end Sandbox

namespace Frontend

open Sandbox (TestCaseResult)

/-- The relevant observable fields of an axios error object as read by
`formatApiError` in `frontend/src/services/api.js`: `error.response.status`,
the `message` / `detail` / `error` fields of `error.response.data`, and
`error.message`.  `none` models an absent (`undefined`) field; `some ""`
models a present but empty string, which is falsy in JavaScript. -/
structure ApiErrorInfo where
  responseStatus : Option Nat
  responseMessage : Option String
  responseDetail : Option String
  responseErrorField : Option String
  message : Option String
deriving DecidableEq, Repr

/-- JavaScript `x || y` specialised to an optional string on the left:
the left operand is taken when it is present and non-empty (truthy). -/
def jsOrStr (x : Option String) (y : String) : String :=
  match x with
  | some s => if s = "" then y else s
  | none => y

/-- JavaScript truthiness of `error?.response?.status` (a number or
`undefined`): truthy iff present and non-zero. -/
def statusTruthy (st : Option Nat) : Bool :=
  match st with
  | some n => n ≠ 0
  | none => false

/-- `${status}` interpolation for the `HTTP ${status}:` prefix. -/
def statusText (st : Option Nat) : String :=
  match st with
  | some n => toString n
  | none => "undefined"

/-- `API_BASE_URL` in `frontend/src/services/api.js`: the env override
is absent in the embedding, so the `"/api"` default (which the trailing
slash strip leaves unchanged). -/
def apiBaseURL : String := "/api"

/-- The backend-unreachable message built in `formatApiError`
(`frontend/src/services/api.js` line 18). -/
def unreachableMessage : String :=
  "Request failed to reach API at " ++ apiBaseURL ++
    ". Start backend: cd backend && python -m uvicorn app.main:app --reload --host 0.0.0.0 --port 8000"

/-- `formatApiError(error, fallbackMessage)` from
`frontend/src/services/api.js` lines 10-27: a fallback chain over the
backend-provided message fields, the unreachable-API hint (only when
there is no HTTP status), the error's own message and the caller's
fallback, prefixed with `HTTP <status>:` when a status is present. -/
def formatApiError (e : ApiErrorInfo) (fallbackMessage : String) : String :=
  let backendMessage :=
    jsOrStr e.responseMessage
      (jsOrStr e.responseDetail
        (jsOrStr e.responseErrorField
          (jsOrStr (some (if statusTruthy e.responseStatus then "" else unreachableMessage))
            (jsOrStr e.message fallbackMessage))))
  if statusTruthy e.responseStatus then
    "HTTP " ++ statusText e.responseStatus ++ ": " ++ backendMessage
  else
    if backendMessage = "" then fallbackMessage else backendMessage

/-- The object stored by `setExecutionResult` in the catch branch of
`handleRunTests` (`frontend/src/pages/Dashboard.jsx` lines 132-140). -/
structure DashboardExecutionPayload where
  status : String
  error : String
  execution_time_ms : Nat
  results : List TestCaseResult
  stdout : String
  stderr : String
deriving DecidableEq, Repr

/-- The catch branch of `handleRunTests` in
`frontend/src/pages/Dashboard.jsx`: when `execute` throws, the stored
execution result is this report-shaped object. -/
def handleRunTestsCatchPayload (err : ApiErrorInfo) : DashboardExecutionPayload :=
  { status := "error",
    error := formatApiError err "Failed to execute code",
    execution_time_ms := 0,
    results := [],
    stdout := "",
    stderr := "" }

/-- The object stored by `setExecutionResults` in the catch branch of
`runExecute` (`frontend/src/context/AnalyzerContext.jsx` lines 134-139). -/
structure ContextExecutionPayload where
  status : String
  error : String
  execution_time_ms : Nat
  results : List TestCaseResult
deriving DecidableEq, Repr

/-- The catch branch of `runExecute` in
`frontend/src/context/AnalyzerContext.jsx`: when `execute` throws, the
stored execution result is this payload. -/
def runExecuteCatchPayload (err : ApiErrorInfo) : ContextExecutionPayload :=
  { status := "error",
    error := formatApiError err "Failed to execute code",
    execution_time_ms := 0,
    results := [] }

end Frontend

namespace Sandbox

/-! ## Comparator lemmas -/

theorem stripNL_concat_newline (l : List Char) :
    stripOneTrailingNewline (l ++ ['\n']) = l := by
  simp [stripOneTrailingNewline, List.getLast?_concat, List.dropLast_concat]

theorem stripNL_of_not_newline {l : List Char} (h : l.getLast? ≠ some '\n') :
    stripOneTrailingNewline l = l := by
  simp [stripOneTrailingNewline, h]

theorem stripNL_length_le (l : List Char) :
    (stripOneTrailingNewline l).length ≤ l.length := by
  unfold stripOneTrailingNewline
  split
  · exact (List.length_dropLast l) ▸ Nat.sub_le _ _
  · exact Nat.le_refl _

theorem compareOutputs_iff (a e : String) :
    compareOutputs a e = true ↔
      stripOneTrailingNewline a.data = stripOneTrailingNewline e.data := by
  simp [compareOutputs]

/-! ## Runner lemmas -/

theorem runCases_echo (cfg : SandboxConfig) (outcomes : Nat → RunOutcome)
    (sys : Option String) (tcs : List TestCase) :
    ((runCases cfg outcomes sys tcs).map (fun p => p.1)).map
        (fun r => (r.input, r.expected_output)) =
      tcs.map (fun tc => (tc.input, tc.expected_output)) := by
  induction tcs generalizing outcomes sys with
  | nil => cases sys <;> rfl
  | cons tc rest ih =>
    cases sys with
    | some msg =>
      simp only [runCases, List.map_cons, systemicResult]
      exact congrArg _ (ih _ _)
    | none =>
      simp only [runCases, List.map_cons]
      refine congrArg₂ _ ?_ (ih _ _)
      cases h : outcomes 0 with
      | done exitCode stdout stderr d =>
        simp only [runCase]
        split <;> rfl
      | timeout s => rfl
      | resourceExceeded d => rfl
      | provisioningFailure => rfl

theorem runCases_length (cfg : SandboxConfig) (outcomes : Nat → RunOutcome)
    (sys : Option String) (tcs : List TestCase) :
    (runCases cfg outcomes sys tcs).length = tcs.length := by
  have := congrArg List.length (runCases_echo cfg outcomes sys tcs)
  simpa using this

theorem runCases_get?_noSys (cfg : SandboxConfig) (outcomes : Nat → RunOutcome)
    (hns : ∀ j, outcomes j ≠ .provisioningFailure)
    (tcs : List TestCase) (j : Nat) :
    (runCases cfg outcomes none tcs)[j]? =
      (tcs[j]?).map (fun tc => runCase cfg tc (outcomes j)) := by
  induction tcs generalizing outcomes j with
  | nil => simp [runCases]
  | cons tc rest ih =>
    have hsys : nextSystemic (outcomes 0) = none := by
      cases h : outcomes 0 with
      | provisioningFailure => exact absurd h (hns 0)
      | done a b c d => rfl
      | timeout s => rfl
      | resourceExceeded d => rfl
    cases j with
    | zero => simp [runCases, hsys]
    | succ k =>
      simp only [runCases, hsys, List.getElem?_cons_succ]
      exact ih (fun k => outcomes (k + 1)) (fun k => hns (k + 1)) k

theorem runCases_durations_noSys (cfg : SandboxConfig) (outcomes : Nat → RunOutcome)
    (hns : ∀ j, outcomes j ≠ .provisioningFailure) (tcs : List TestCase) :
    (runCases cfg outcomes none tcs).map (fun p => p.2) =
      (List.range tcs.length).map (fun k => outcomeDuration cfg (outcomes k)) := by
  induction tcs generalizing outcomes with
  | nil => rfl
  | cons tc rest ih =>
    have hsys : nextSystemic (outcomes 0) = none := by
      cases h : outcomes 0 with
      | provisioningFailure => exact absurd h (hns 0)
      | done a b c d => rfl
      | timeout s => rfl
      | resourceExceeded d => rfl
    simp only [runCases, hsys, List.map_cons, List.length_cons,
      List.range_succ_eq_map, List.map_map]
    refine congrArg₂ _ ?_ ?_
    · cases h : outcomes 0 with
      | done a b c d => simp only [runCase, outcomeDuration]; split <;> rfl
      | timeout s => rfl
      | resourceExceeded d => rfl
      | provisioningFailure => exact absurd h (hns 0)
    · rw [ih (fun k => outcomes (k + 1)) (fun k => hns (k + 1))]
      rfl

theorem foldl_add_eq_sum (init : Nat) (pairs : List (TestCaseResult × Nat)) :
    pairs.foldl (fun acc p => acc + p.2) init =
      init + (pairs.map (fun p => p.2)).sum := by
  induction pairs generalizing init with
  | nil => simp
  | cons p rest ih =>
    simp only [List.foldl_cons, List.map_cons, List.sum_cons, ih]
    omega

theorem runCases_results_sameModuloTiming (cfg : SandboxConfig)
    (o1 o2 : Nat → RunOutcome)
    (h : ∀ i, RunOutcome.sameModuloTiming (o1 i) (o2 i))
    (sys : Option String) (tcs : List TestCase) :
    (runCases cfg o1 sys tcs).map (fun p => p.1) =
      (runCases cfg o2 sys tcs).map (fun p => p.1) := by
  induction tcs generalizing o1 o2 sys with
  | nil => cases sys <;> rfl
  | cons tc rest ih =>
    cases sys with
    | some msg =>
      simp only [runCases, List.map_cons]
      exact congrArg _ (ih o1 o2 h (some msg))
    | none =>
      have h0 := h 0
      simp only [runCases, List.map_cons]
      cases h1 : o1 0 <;> cases h2 : o2 0 <;>
        rw [h1, h2] at h0 <;>
        first
          | exact absurd h0 (by exact fun hf => hf)
          | skip
      case done.done e1 s1 r1 d1 e2 s2 r2 d2 =>
        obtain ⟨he, hs, hr⟩ := h0
        subst he; subst hs; subst hr
        refine congrArg₂ _ ?_ (ih _ _ (fun k => h (k + 1)) _)
        simp only [runCase]
        split <;> rfl
      case timeout.timeout s1 s2 =>
        exact congrArg₂ _ rfl (ih _ _ (fun k => h (k + 1)) _)
      case resourceExceeded.resourceExceeded d1 d2 =>
        exact congrArg₂ _ rfl (ih _ _ (fun k => h (k + 1)) _)
      case provisioningFailure.provisioningFailure =>
        exact congrArg₂ _ rfl (ih _ _ (fun k => h (k + 1)) _)

/-! ## Provisioner-state lemmas -/

theorem destroy_destroy (s : ProvState) (e : Nat) :
    (s.destroy e).destroy e = s.destroy e := by
  by_cases h : e ∈ s.alive
  · have h1 : s.destroy e =
        { created := s.created, alive := s.alive.filter (fun x => x ≠ e),
          destroyCount := s.destroyCount + 1 } := by
      unfold ProvState.destroy
      rw [if_pos h]
    rw [h1]
    unfold ProvState.destroy
    rw [if_neg]
    simp [List.mem_filter]
  · have h1 : s.destroy e = s := by
      unfold ProvState.destroy
      rw [if_neg h]
    rw [h1, h1]

theorem create_then_destroy (st : ProvState) (hfresh : st.created ∉ st.alive) :
    (st.create.2).destroy st.create.1 =
      { created := st.created + 1, alive := st.alive,
        destroyCount := st.destroyCount + 1 } := by
  unfold ProvState.create ProvState.destroy
  rw [if_pos (List.mem_cons_self _ _)]
  have hfil : (st.created :: st.alive).filter (fun x => x ≠ st.created) = st.alive := by
    rw [List.filter_cons]
    simp only [ne_eq, not_true_eq_false, decide_False, Bool.false_eq_true, if_false]
    exact List.filter_eq_self.2 (fun a ha => by
      simp only [ne_eq, decide_eq_true_eq]
      exact fun h => hfresh (h ▸ ha))
  rw [hfil]

/-! ## Pipeline branch lemmas -/

theorem executeSubmission_state (cfg : SandboxConfig) (B : Behavior)
    (code language : String) (tcs : List TestCase) (st : ProvState)
    (sp : LanguageSpec) (hres : resolve language = some sp)
    (hprov : B.provisionOk = true) :
    (executeSubmission cfg B code language tcs st).2 =
      (st.create.2).destroy st.create.1 := by
  unfold executeSubmission
  rw [hres, hprov]
  simp only [if_true]
  by_cases hc : sp.isCompiled
  · rw [if_pos hc]
    cases B.buildOutcome with
    | done e o r d =>
      by_cases he : e = 0
      · simp [he]
      · simp [he]
    | timeout s => rfl
    | resourceExceeded d => rfl
    | provisioningFailure => rfl
  · rw [if_neg hc]

theorem executeSubmission_report_of_buildOk (cfg : SandboxConfig) (B : Behavior)
    (code language : String) (tcs : List TestCase) (st : ProvState)
    (sp : LanguageSpec) (hres : resolve language = some sp)
    (hprov : B.provisionOk = true)
    (hbuild : sp.isCompiled = true → buildSucceeds B) :
    (executeSubmission cfg B code language tcs st).1 =
      aggregateReport (buildDuration cfg sp B)
        (runCases cfg B.runOutcome none tcs) := by
  unfold executeSubmission
  rw [hres, hprov]
  simp only [if_true]
  by_cases hc : sp.isCompiled
  · rw [if_pos hc]
    obtain ⟨o, r, d, hdone⟩ := hbuild hc
    rw [hdone]
    simp only [if_pos rfl]
    unfold buildDuration
    rw [if_pos hc, hdone]
    rfl
  · rw [if_neg hc]
    unfold buildDuration
    rw [if_neg hc]

theorem executeSubmission_resolve_none (cfg : SandboxConfig) (B : Behavior)
    (code language : String) (tcs : List TestCase) (st : ProvState)
    (h : resolve language = none) :
    executeSubmission cfg B code language tcs st =
      (unsupportedReport language, st) := by
  unfold executeSubmission
  rw [h]

theorem executeSubmission_noProvision (cfg : SandboxConfig) (B : Behavior)
    (code language : String) (tcs : List TestCase) (st : ProvState)
    (sp : LanguageSpec) (hres : resolve language = some sp)
    (h : B.provisionOk = false) :
    executeSubmission cfg B code language tcs st =
      (provisioningErrorReport, st) := by
  unfold executeSubmission
  rw [hres, h]
  rfl

theorem executeSubmission_compileFail_done (cfg : SandboxConfig) (B : Behavior)
    (code language : String) (tcs : List TestCase) (st : ProvState)
    (sp : LanguageSpec) (hres : resolve language = some sp)
    (hprov : B.provisionOk = true) (hc : sp.isCompiled = true)
    (e : Nat) (o r : String) (d : Nat)
    (hdone : B.buildOutcome = RunOutcome.done e o r d) (hne : e ≠ 0) :
    (executeSubmission cfg B code language tcs st).1 = compileErrorReport r d := by
  unfold executeSubmission
  rw [hres, hprov]
  simp only [if_true]
  rw [if_pos hc, hdone]
  simp only [if_neg hne]

theorem executeSubmission_compileFail_timeout (cfg : SandboxConfig) (B : Behavior)
    (code language : String) (tcs : List TestCase) (st : ProvState)
    (sp : LanguageSpec) (hres : resolve language = some sp)
    (hprov : B.provisionOk = true) (hc : sp.isCompiled = true)
    (s : String) (hout : B.buildOutcome = RunOutcome.timeout s) :
    (executeSubmission cfg B code language tcs st).1 =
      compileErrorReport s cfg.timeoutMs := by
  unfold executeSubmission
  rw [hres, hprov]
  simp only [if_true]
  rw [if_pos hc, hout]

theorem executeSubmission_compileFail_resource (cfg : SandboxConfig) (B : Behavior)
    (code language : String) (tcs : List TestCase) (st : ProvState)
    (sp : LanguageSpec) (hres : resolve language = some sp)
    (hprov : B.provisionOk = true) (hc : sp.isCompiled = true)
    (d : Nat) (hout : B.buildOutcome = RunOutcome.resourceExceeded d) :
    (executeSubmission cfg B code language tcs st).1 =
      compileErrorReport memoryMessage d := by
  unfold executeSubmission
  rw [hres, hprov]
  simp only [if_true]
  rw [if_pos hc, hout]

theorem executeSubmission_buildProvFail (cfg : SandboxConfig) (B : Behavior)
    (code language : String) (tcs : List TestCase) (st : ProvState)
    (sp : LanguageSpec) (hres : resolve language = some sp)
    (hprov : B.provisionOk = true) (hc : sp.isCompiled = true)
    (hout : B.buildOutcome = RunOutcome.provisioningFailure) :
    (executeSubmission cfg B code language tcs st).1 =
      provisioningErrorReport := by
  unfold executeSubmission
  rw [hres, hprov]
  simp only [if_true]
  rw [if_pos hc, hout]

end Sandbox

namespace Sandbox

/-- Claim C1: the Output Comparator strips exactly one trailing newline
from each side before comparing and nothing else: appending one final
newline to a newline-free string still passes against that string;
appending any non-newline character never passes; appending two newlines
does not pass; and concretely `compare("10\n","10")` passes,
`compare("10 \n","10")` does not (the internal trailing space remains a
real mismatch), and `compare("","")` passes. -/
theorem C1_output_comparator_policy :
    (∀ s : String, s.data.getLast? ≠ some '\n' →
      compareOutputs (s ++ "\n") s = true)
  ∧ (∀ (s : String) (c : Char), c ≠ '\n' →
      compareOutputs (s.push c) s = false)
  ∧ (∀ s : String, s.data.getLast? ≠ some '\n' →
      compareOutputs (s ++ "\n" ++ "\n") s = false)
  ∧ compareOutputs "10\n" "10" = true
  ∧ compareOutputs "10 \n" "10" = false
  ∧ compareOutputs "" "" = true := by
  refine ⟨?_, ?_, ?_, by decide, by decide, by decide⟩
  · intro s h
    rw [compareOutputs_iff, String.data_append, stripNL_of_not_newline h]
    exact stripNL_concat_newline s.data
  · intro s c h
    rw [← Bool.not_eq_true, compareOutputs_iff, String.data_push]
    intro heq
    have hlast : (s.data ++ [c]).getLast? = some c := List.getLast?_concat _
    have hne : (s.data ++ [c]).getLast? ≠ some '\n' := by
      rw [hlast]
      intro hx
      exact h (Option.some.injEq .. ▸ hx)
    rw [stripNL_of_not_newline hne] at heq
    have hlen := congrArg List.length heq
    simp only [List.length_append, List.length_cons, List.length_nil] at hlen
    have h2 := stripNL_length_le s.data
    omega
  · intro s h
    rw [← Bool.not_eq_true, compareOutputs_iff]
    intro heq
    have hd : (s ++ "\n" ++ "\n").data = (s.data ++ ['\n']) ++ ['\n'] := by
      simp [String.data_append]
    rw [hd, stripNL_concat_newline, stripNL_of_not_newline h] at heq
    have hlen := congrArg List.length heq
    simp at hlen

/-- Witness for C1 at concrete inputs. -/
theorem C1_output_comparator_policy_witness :
    compareOutputs ("10" ++ "\n") "10" = true
  ∧ compareOutputs ("10".push ' ') "10" = false
  ∧ compareOutputs ("10" ++ "\n" ++ "\n") "10" = false :=
  ⟨C1_output_comparator_policy.1 "10" (by decide),
   C1_output_comparator_policy.2.1 "10" ' ' (by decide),
   C1_output_comparator_policy.2.2.1 "10" (by decide)⟩

/-- Claim C2: for every language identifier not in the Runtime Registry,
`executeSubmission` returns a report with `status = error` (the failure
surfaces through the report shape; the function is total, so no
exception escapes) and the Provisioner state is untouched — no
environment is created and none is left alive. -/
theorem C2_unsupported_language (cfg : SandboxConfig) (B : Behavior)
    (code language : String) (tcs : List TestCase) (st : ProvState)
    (h : resolve language = none) :
    (executeSubmission cfg B code language tcs st).1.status = Status.error
  ∧ (executeSubmission cfg B code language tcs st).2 = st := by
  rw [executeSubmission_resolve_none cfg B code language tcs st h]
  exact ⟨rfl, rfl⟩

/-- Witness for C2: "javascript" is analyzable but not executable. -/
theorem C2_unsupported_language_witness :
    resolve "javascript" = none
  ∧ (executeSubmission defaultConfig behaviorOk "f()" "javascript" [tcA] st0).1.status
      = Status.error
  ∧ (executeSubmission defaultConfig behaviorOk "f()" "javascript" [tcA] st0).2 = st0 := by
  have h : resolve "javascript" = none := by decide
  have := C2_unsupported_language defaultConfig behaviorOk "f()" "javascript" [tcA] st0 h
  exact ⟨h, this.1, this.2⟩

/-- Claim C3: for every compiled-language submission whose build step
fails (non-zero exit or timeout), the submission short-circuits: the
report has `status = error` and empty `results`, the compiler's captured
stderr is surfaced verbatim as the diagnostic (both as the top-level
error and the stderr stream on a non-zero exit; as the partial capture
on a timeout), and no test case is run — the report does not depend on
the test-case outcomes at all. -/
theorem C3_compile_failure_short_circuits (cfg : SandboxConfig) (B : Behavior)
    (code language : String) (tcs : List TestCase) (st : ProvState)
    (sp : LanguageSpec) (hres : resolve language = some sp)
    (hprov : B.provisionOk = true) (hc : sp.isCompiled = true)
    (hfail : (∃ e o r d, B.buildOutcome = RunOutcome.done e o r d ∧ e ≠ 0)
           ∨ (∃ s, B.buildOutcome = RunOutcome.timeout s)) :
    (executeSubmission cfg B code language tcs st).1.status = Status.error
  ∧ (executeSubmission cfg B code language tcs st).1.results = []
  ∧ (∀ e o r d, B.buildOutcome = RunOutcome.done e o r d →
      (executeSubmission cfg B code language tcs st).1.error = some r
    ∧ (executeSubmission cfg B code language tcs st).1.stderr = r)
  ∧ (∀ s, B.buildOutcome = RunOutcome.timeout s →
      (executeSubmission cfg B code language tcs st).1.error = some s)
  ∧ (∀ f, (executeSubmission cfg
        { provisionOk := B.provisionOk, buildOutcome := B.buildOutcome,
          runOutcome := f } code language tcs st).1 =
      (executeSubmission cfg B code language tcs st).1) := by
  rcases hfail with ⟨e, o, r, d, hdone, hne⟩ | ⟨s, htime⟩
  · have hrep := executeSubmission_compileFail_done cfg B code language tcs st sp
      hres hprov hc e o r d hdone hne
    refine ⟨by rw [hrep]; rfl, by rw [hrep]; rfl, ?_, ?_, ?_⟩
    · intro e' o' r' d' h'
      rw [hdone] at h'
      obtain ⟨-, -, hr, -⟩ := RunOutcome.done.inj h'.symm
      rw [hrep, ← hr]
      exact ⟨rfl, rfl⟩
    · intro s' h'
      rw [hdone] at h'
      cases h'
    · intro f
      have hrep2 := executeSubmission_compileFail_done cfg
        { provisionOk := B.provisionOk, buildOutcome := B.buildOutcome,
          runOutcome := f } code language tcs st sp hres hprov hc e o r d hdone hne
      rw [hrep, hrep2]
  · have hrep := executeSubmission_compileFail_timeout cfg B code language tcs st sp
      hres hprov hc s htime
    refine ⟨by rw [hrep]; rfl, by rw [hrep]; rfl, ?_, ?_, ?_⟩
    · intro e' o' r' d' h'
      rw [htime] at h'
      cases h'
    · intro s' h'
      rw [htime] at h'
      have hs : s' = s := RunOutcome.timeout.inj h'.symm
      rw [hrep, hs]
      rfl
    · intro f
      have hrep2 := executeSubmission_compileFail_timeout cfg
        { provisionOk := B.provisionOk, buildOutcome := B.buildOutcome,
          runOutcome := f } code language tcs st sp hres hprov hc s htime
      rw [hrep, hrep2]

/-- Witness for C3: language "c" with a failing compile (diagnostic from
the compiler), one submitted test case, nothing run. -/
theorem C3_compile_failure_short_circuits_witness :
    (executeSubmission defaultConfig behaviorCompileFail "broken c program" "c" [tcA] st0).1.status
      = Status.error
  ∧ (executeSubmission defaultConfig behaviorCompileFail "broken c program" "c" [tcA] st0).1.results
      = []
  ∧ (executeSubmission defaultConfig behaviorCompileFail "broken c program" "c" [tcA] st0).1.error
      = some "main.c:3:1: error: expected expression" := by
  have h := C3_compile_failure_short_circuits defaultConfig behaviorCompileFail
    "broken c program" "c" [tcA] st0 cSpec (by decide) rfl rfl
    (Or.inl ⟨1, "", "main.c:3:1: error: expected expression", 7, rfl, by decide⟩)
  exact ⟨h.1, h.2.1, (h.2.2.1 1 "" "main.c:3:1: error: expected expression" 7 rfl).1⟩

end Sandbox

namespace Sandbox

/-- Claim C4: a per-test-case timeout or resource kill is local: the
report keeps `status = success`, every submitted case still yields a
result determined by its own invocation outcome (the remaining cases
run), and the killed case's result has `passed = false`,
`actual_output = ""` and a non-null error classification. -/
theorem C4_per_case_kill_is_local (cfg : SandboxConfig) (B : Behavior)
    (code language : String) (tcs : List TestCase) (st : ProvState)
    (sp : LanguageSpec) (i : Nat)
    (hres : resolve language = some sp) (hprov : B.provisionOk = true)
    (hbuild : sp.isCompiled = true → buildSucceeds B)
    (hns : ∀ j, B.runOutcome j ≠ RunOutcome.provisioningFailure)
    (hi : i < tcs.length)
    (hkill : (∃ s, B.runOutcome i = RunOutcome.timeout s)
           ∨ (∃ d, B.runOutcome i = RunOutcome.resourceExceeded d)) :
    (executeSubmission cfg B code language tcs st).1.status = Status.success
  ∧ (executeSubmission cfg B code language tcs st).1.results.length = tcs.length
  ∧ (∀ j, (executeSubmission cfg B code language tcs st).1.results[j]? =
      (tcs[j]?).map (fun tc => (runCase cfg tc (B.runOutcome j)).1))
  ∧ (∃ res, (executeSubmission cfg B code language tcs st).1.results[i]? = some res
      ∧ res.passed = false ∧ res.actual_output = "" ∧ res.error.isSome = true) := by
  have hrep := executeSubmission_report_of_buildOk cfg B code language tcs st sp
    hres hprov hbuild
  rw [hrep]
  have hpt : ∀ j, (aggregateReport (buildDuration cfg sp B)
      (runCases cfg B.runOutcome none tcs)).results[j]? =
      (tcs[j]?).map (fun tc => (runCase cfg tc (B.runOutcome j)).1) := by
    intro j
    show ((runCases cfg B.runOutcome none tcs).map (fun p => p.1))[j]? = _
    rw [List.getElem?_map, runCases_get?_noSys cfg B.runOutcome hns tcs j,
      Option.map_map]
    rfl
  refine ⟨rfl, ?_, hpt, ?_⟩
  · show ((runCases cfg B.runOutcome none tcs).map (fun p => p.1)).length = _
    rw [List.length_map]
    exact runCases_length cfg B.runOutcome none tcs
  · have htc : tcs[i]? = some (tcs.get ⟨i, hi⟩) := by
      rw [List.getElem?_eq_getElem hi]
      rfl
    refine ⟨(runCase cfg (tcs.get ⟨i, hi⟩) (B.runOutcome i)).1, ?_, ?_⟩
    · rw [hpt i, htc]
      rfl
    · rcases hkill with ⟨s, hk⟩ | ⟨d, hk⟩ <;> rw [hk] <;>
        exact ⟨rfl, rfl, rfl⟩

/-- Witness for C4: first of two python test cases times out. -/
theorem C4_per_case_kill_is_local_witness :
    (executeSubmission defaultConfig behaviorCaseTimeout "while True: pass" "python"
      [tcA, tcB] st0).1.status = Status.success
  ∧ (executeSubmission defaultConfig behaviorCaseTimeout "while True: pass" "python"
      [tcA, tcB] st0).1.results.length = 2
  ∧ (∃ res, (executeSubmission defaultConfig behaviorCaseTimeout "while True: pass"
      "python" [tcA, tcB] st0).1.results[0]? = some res
      ∧ res.passed = false ∧ res.actual_output = "" ∧ res.error.isSome = true) := by
  have h := C4_per_case_kill_is_local defaultConfig behaviorCaseTimeout
    "while True: pass" "python" [tcA, tcB] st0 pythonSpec 0 (by decide) rfl
    (fun hcomp => absurd hcomp (by decide))
    (fun j => by
      unfold behaviorCaseTimeout
      dsimp only
      split <;> intro hx <;> cases hx)
    (by decide)
    (Or.inl ⟨"", rfl⟩)
  exact ⟨h.1, h.2.1, h.2.2.2⟩

/-- Claim C5: for every submission whose language resolves and whose
environment can be provisioned, exactly one environment is created and
exactly one is destroyed before the core returns control — the alive set
is restored on every outcome (build success, build failure, test-case
timeout, any behavior) — and `destroy` is idempotent: destroying the
same environment twice leaves the same state as destroying it once. -/
theorem C5_environment_lifecycle (cfg : SandboxConfig) (B : Behavior)
    (code language : String) (tcs : List TestCase) (st : ProvState)
    (sp : LanguageSpec) (hres : resolve language = some sp)
    (hprov : B.provisionOk = true) (hfresh : st.created ∉ st.alive) :
    ((executeSubmission cfg B code language tcs st).2.created = st.created + 1)
  ∧ ((executeSubmission cfg B code language tcs st).2.destroyCount =
      st.destroyCount + 1)
  ∧ ((executeSubmission cfg B code language tcs st).2.alive = st.alive)
  ∧ (∀ (s : ProvState) (e : Nat), (s.destroy e).destroy e = s.destroy e) := by
  have h1 := executeSubmission_state cfg B code language tcs st sp hres hprov
  rw [h1, create_then_destroy st hfresh]
  exact ⟨rfl, rfl, rfl, destroy_destroy⟩

/-- Witness for C5 on a compile-failure outcome. -/
theorem C5_environment_lifecycle_witness :
    ((executeSubmission defaultConfig behaviorCompileFail "broken c program" "c" [tcA] st0).2.created
      = st0.created + 1)
  ∧ ((executeSubmission defaultConfig behaviorCompileFail "broken c program" "c" [tcA] st0).2.destroyCount
      = st0.destroyCount + 1)
  ∧ ((executeSubmission defaultConfig behaviorCompileFail "broken c program" "c" [tcA] st0).2.alive
      = st0.alive) := by
  have h := C5_environment_lifecycle defaultConfig behaviorCompileFail "broken c program" "c"
    [tcA] st0 cSpec (by decide) rfl (by decide)
  exact ⟨h.1, h.2.1, h.2.2.1⟩

/-- Claim C6: whenever the pipeline reaches the Test Case Runner, the
results sequence has the same length and order as the submitted test
cases: the i-th result echoes the i-th case's input and expected_output,
regardless of each case's pass/fail outcome (the behavior is
arbitrary). -/
theorem C6_results_preserve_order (cfg : SandboxConfig) (B : Behavior)
    (code language : String) (tcs : List TestCase) (st : ProvState)
    (sp : LanguageSpec) (hres : resolve language = some sp)
    (hprov : B.provisionOk = true)
    (hbuild : sp.isCompiled = true → buildSucceeds B) :
    (executeSubmission cfg B code language tcs st).1.results.length = tcs.length
  ∧ (executeSubmission cfg B code language tcs st).1.results.map
        (fun r => (r.input, r.expected_output)) =
      tcs.map (fun tc => (tc.input, tc.expected_output)) := by
  have hrep := executeSubmission_report_of_buildOk cfg B code language tcs st sp
    hres hprov hbuild
  rw [hrep]
  constructor
  · show ((runCases cfg B.runOutcome none tcs).map (fun p => p.1)).length = _
    rw [List.length_map]
    exact runCases_length cfg B.runOutcome none tcs
  · exact runCases_echo cfg B.runOutcome none tcs

/-- Witness for C6 on two concrete test cases. -/
theorem C6_results_preserve_order_witness :
    (executeSubmission defaultConfig behaviorOk "s=input()" "python" [tcA, tcB] st0).1.results.length
      = 2
  ∧ (executeSubmission defaultConfig behaviorOk "s=input()" "python" [tcA, tcB] st0).1.results.map
        (fun r => (r.input, r.expected_output)) =
      [("5 3", "8"), ("2 2", "4")] := by
  have h := C6_results_preserve_order defaultConfig behaviorOk "s=input()" "python"
    [tcA, tcB] st0 pythonSpec (by decide) rfl
    (fun hcomp => absurd hcomp (by decide))
  exact ⟨h.1, h.2⟩

end Sandbox

namespace Sandbox

/-- Claim C7: `executeSubmission` is deterministic up to timing — two
runs of the same `(code, language, testCases)` triple whose invocations
complete the same way (same exit codes and captured streams; wall-clock
durations free to differ, so `execution_time_ms` may differ) produce
identical `results` sequences: same order, same passed flags. -/
theorem C7_results_deterministic_modulo_timing (cfg : SandboxConfig)
    (B1 B2 : Behavior) (code language : String) (tcs : List TestCase)
    (st1 st2 : ProvState) (h : Behavior.sameModuloTiming B1 B2) :
    (executeSubmission cfg B1 code language tcs st1).1.results =
      (executeSubmission cfg B2 code language tcs st2).1.results := by
  obtain ⟨hp, hb, hr⟩ := h
  cases hres : resolve language with
  | none =>
    rw [executeSubmission_resolve_none cfg B1 code language tcs st1 hres,
      executeSubmission_resolve_none cfg B2 code language tcs st2 hres]
  | some sp =>
    by_cases hpv : B1.provisionOk = true
    · have hpv2 : B2.provisionOk = true := hp ▸ hpv
      by_cases hc : sp.isCompiled = true
      · cases h1 : B1.buildOutcome with
        | done e1 o1 r1 d1 =>
          cases h2 : B2.buildOutcome with
          | done e2 o2 r2 d2 =>
            rw [h1, h2] at hb
            obtain ⟨he, ho, hrr⟩ := hb
            by_cases he0 : e1 = 0
            · have hb1 : sp.isCompiled = true → buildSucceeds B1 :=
                fun _ => ⟨o1, r1, d1, by rw [h1, he0]⟩
              have hb2 : sp.isCompiled = true → buildSucceeds B2 :=
                fun _ => ⟨o2, r2, d2, by rw [h2, ← he, he0]⟩
              rw [executeSubmission_report_of_buildOk cfg B1 code language tcs st1
                    sp hres hpv hb1,
                executeSubmission_report_of_buildOk cfg B2 code language tcs st2
                    sp hres hpv2 hb2]
              exact runCases_results_sameModuloTiming cfg B1.runOutcome
                B2.runOutcome hr none tcs
            · have he02 : e2 ≠ 0 := he ▸ he0
              rw [executeSubmission_compileFail_done cfg B1 code language tcs st1
                    sp hres hpv hc e1 o1 r1 d1 h1 he0,
                executeSubmission_compileFail_done cfg B2 code language tcs st2
                    sp hres hpv2 hc e2 o2 r2 d2 h2 he02]
              rfl
          | timeout s2 => rw [h1, h2] at hb; exact absurd hb (fun x => x)
          | resourceExceeded d2 => rw [h1, h2] at hb; exact absurd hb (fun x => x)
          | provisioningFailure => rw [h1, h2] at hb; exact absurd hb (fun x => x)
        | timeout s1 =>
          cases h2 : B2.buildOutcome with
          | timeout s2 =>
            rw [executeSubmission_compileFail_timeout cfg B1 code language tcs st1
                  sp hres hpv hc s1 h1,
              executeSubmission_compileFail_timeout cfg B2 code language tcs st2
                  sp hres hpv2 hc s2 h2]
            rfl
          | done e2 o2 r2 d2 => rw [h1, h2] at hb; exact absurd hb (fun x => x)
          | resourceExceeded d2 => rw [h1, h2] at hb; exact absurd hb (fun x => x)
          | provisioningFailure => rw [h1, h2] at hb; exact absurd hb (fun x => x)
        | resourceExceeded d1 =>
          cases h2 : B2.buildOutcome with
          | resourceExceeded d2 =>
            rw [executeSubmission_compileFail_resource cfg B1 code language tcs st1
                  sp hres hpv hc d1 h1,
              executeSubmission_compileFail_resource cfg B2 code language tcs st2
                  sp hres hpv2 hc d2 h2]
            rfl
          | done e2 o2 r2 d2 => rw [h1, h2] at hb; exact absurd hb (fun x => x)
          | timeout s2 => rw [h1, h2] at hb; exact absurd hb (fun x => x)
          | provisioningFailure => rw [h1, h2] at hb; exact absurd hb (fun x => x)
        | provisioningFailure =>
          cases h2 : B2.buildOutcome with
          | provisioningFailure =>
            rw [executeSubmission_buildProvFail cfg B1 code language tcs st1
                  sp hres hpv hc h1,
              executeSubmission_buildProvFail cfg B2 code language tcs st2
                  sp hres hpv2 hc h2]
          | done e2 o2 r2 d2 => rw [h1, h2] at hb; exact absurd hb (fun x => x)
          | timeout s2 => rw [h1, h2] at hb; exact absurd hb (fun x => x)
          | resourceExceeded d2 => rw [h1, h2] at hb; exact absurd hb (fun x => x)
      · have hb1 : sp.isCompiled = true → buildSucceeds B1 := fun hx => absurd hx hc
        have hb2 : sp.isCompiled = true → buildSucceeds B2 := fun hx => absurd hx hc
        rw [executeSubmission_report_of_buildOk cfg B1 code language tcs st1 sp
              hres hpv hb1,
          executeSubmission_report_of_buildOk cfg B2 code language tcs st2 sp
              hres hpv2 hb2]
        exact runCases_results_sameModuloTiming cfg B1.runOutcome B2.runOutcome
          hr none tcs
    · have hpv1 : B1.provisionOk = false := Bool.not_eq_true _ ▸ hpv
      have hpv2 : B2.provisionOk = false := hp ▸ hpv1
      rw [executeSubmission_noProvision cfg B1 code language tcs st1 sp hres hpv1,
        executeSubmission_noProvision cfg B2 code language tcs st2 sp hres hpv2]

/-- Witness for C7: two runs that differ only in durations give the same
results, while the total execution times differ. -/
theorem C7_results_deterministic_modulo_timing_witness :
    (executeSubmission defaultConfig behaviorOk "print(8)" "python" [tcA] st0).1.results =
      (executeSubmission defaultConfig behaviorOkSlow "print(8)" "python" [tcA] st0).1.results
  ∧ (executeSubmission defaultConfig behaviorOk "print(8)" "python" [tcA] st0).1.execution_time_ms ≠
      (executeSubmission defaultConfig behaviorOkSlow "print(8)" "python" [tcA] st0).1.execution_time_ms := by
  refine ⟨C7_results_deterministic_modulo_timing defaultConfig behaviorOk behaviorOkSlow
    "print(8)" "python" [tcA] st0 st0 ⟨rfl, ⟨rfl, rfl, rfl⟩, fun i => ⟨rfl, rfl, rfl⟩⟩, ?_⟩
  decide

/-- Claim C8: `executeSubmission` accepts an empty test-case sequence:
for a resolvable language and a provisionable environment, the report's
`results` list is empty and its status still reflects build success or
failure (`success` exactly when the build step, if the language is
compiled, exited 0). -/
theorem C8_empty_testcases_wellformed (cfg : SandboxConfig) (B : Behavior)
    (code language : String) (st : ProvState) (sp : LanguageSpec)
    (hres : resolve language = some sp) (hprov : B.provisionOk = true) :
    (executeSubmission cfg B code language [] st).1.results = []
  ∧ ((executeSubmission cfg B code language [] st).1.status = Status.success ↔
      (sp.isCompiled = true → buildSucceeds B)) := by
  by_cases hok : sp.isCompiled = true → buildSucceeds B
  · rw [executeSubmission_report_of_buildOk cfg B code language [] st sp hres hprov hok]
    exact ⟨rfl, iff_of_true rfl hok⟩
  · have hc : sp.isCompiled = true := by
      by_contra hcn
      exact hok (fun hx => absurd hx hcn)
    cases hout : B.buildOutcome with
    | done e o r d =>
      have hne : e ≠ 0 := by
        intro he0
        exact hok (fun _ => ⟨o, r, d, by rw [hout, he0]⟩)
      rw [executeSubmission_compileFail_done cfg B code language [] st sp hres
        hprov hc e o r d hout hne]
      exact ⟨rfl, iff_of_false (by intro hx; cases hx) hok⟩
    | timeout s =>
      rw [executeSubmission_compileFail_timeout cfg B code language [] st sp hres
        hprov hc s hout]
      exact ⟨rfl, iff_of_false (by intro hx; cases hx) hok⟩
    | resourceExceeded d =>
      rw [executeSubmission_compileFail_resource cfg B code language [] st sp hres
        hprov hc d hout]
      exact ⟨rfl, iff_of_false (by intro hx; cases hx) hok⟩
    | provisioningFailure =>
      rw [executeSubmission_buildProvFail cfg B code language [] st sp hres hprov
        hc hout]
      exact ⟨rfl, iff_of_false (by intro hx; cases hx) hok⟩

/-- Witness for C8: empty test cases with a successful c build and with
a failing c build. -/
theorem C8_empty_testcases_wellformed_witness :
    (executeSubmission defaultConfig behaviorOk "valid c program" "c" [] st0).1.results = []
  ∧ (executeSubmission defaultConfig behaviorOk "valid c program" "c" [] st0).1.status
      = Status.success
  ∧ (executeSubmission defaultConfig behaviorCompileFail "broken c program" "c" [] st0).1.status
      ≠ Status.success := by
  have h1 := C8_empty_testcases_wellformed defaultConfig behaviorOk "valid c program"
    "c" st0 cSpec (by decide) rfl
  have h2 := C8_empty_testcases_wellformed defaultConfig behaviorCompileFail
    "broken c program" "c" st0 cSpec (by decide) rfl
  refine ⟨h1.1, h1.2.mpr (fun _ => ⟨"8", "", 3, rfl⟩), ?_⟩
  intro hx
  obtain ⟨o, r, d, hdone⟩ := h2.2.mp hx rfl
  cases hdone

/-- Claim C9: the report's `execution_time_ms` is the build step's
duration (0 when no build occurs) plus the durations of all executed
test cases: when the build succeeds (or the language is interpreted) it
is the build duration plus the sum of every test case's duration, and
when the build fails (non-zero exit or timeout) no case is executed and
it is the build duration alone. -/
theorem C9_execution_time_sums (cfg : SandboxConfig) (B : Behavior)
    (code language : String) (tcs : List TestCase) (st : ProvState)
    (sp : LanguageSpec) (hres : resolve language = some sp)
    (hprov : B.provisionOk = true)
    (hns : ∀ j, B.runOutcome j ≠ RunOutcome.provisioningFailure) :
    ((sp.isCompiled = true → buildSucceeds B) →
      (executeSubmission cfg B code language tcs st).1.execution_time_ms =
        buildDuration cfg sp B +
          ((List.range tcs.length).map
            (fun k => outcomeDuration cfg (B.runOutcome k))).sum)
  ∧ (∀ e o r d, sp.isCompiled = true → B.buildOutcome = RunOutcome.done e o r d →
      e ≠ 0 →
      (executeSubmission cfg B code language tcs st).1.execution_time_ms =
        buildDuration cfg sp B)
  ∧ (∀ x, sp.isCompiled = true → B.buildOutcome = RunOutcome.timeout x →
      (executeSubmission cfg B code language tcs st).1.execution_time_ms =
        buildDuration cfg sp B) := by
  refine ⟨?_, ?_, ?_⟩
  · intro hbuild
    rw [executeSubmission_report_of_buildOk cfg B code language tcs st sp hres
      hprov hbuild]
    show (runCases cfg B.runOutcome none tcs).foldl (fun acc p => acc + p.2)
        (buildDuration cfg sp B) = _
    rw [foldl_add_eq_sum, runCases_durations_noSys cfg B.runOutcome hns tcs]
  · intro e o r d hc hdone hne
    rw [executeSubmission_compileFail_done cfg B code language tcs st sp hres
      hprov hc e o r d hdone hne]
    unfold buildDuration
    rw [if_pos hc, hdone]
    rfl
  · intro x hc hout
    rw [executeSubmission_compileFail_timeout cfg B code language tcs st sp hres
      hprov hc x hout]
    unfold buildDuration
    rw [if_pos hc, hout]
    rfl

/-- Witness for C9: a compiled language with one test case — build takes
3 ms, the case takes 3 ms, total 6 ms. -/
theorem C9_execution_time_sums_witness :
    (executeSubmission defaultConfig behaviorOk "valid c program" "c" [tcA] st0).1.execution_time_ms
      = buildDuration defaultConfig cSpec behaviorOk +
        ((List.range 1).map
          (fun k => outcomeDuration defaultConfig (behaviorOk.runOutcome k))).sum
  ∧ (executeSubmission defaultConfig behaviorOk "valid c program" "c" [tcA] st0).1.execution_time_ms
      = 6 := by
  have h := C9_execution_time_sums defaultConfig behaviorOk "valid c program" "c"
    [tcA] st0 cSpec (by decide) rfl (fun j hx => by cases hx)
  exact ⟨h.1 (fun _ => ⟨"8", "", 3, rfl⟩), by decide⟩

end Sandbox

namespace Frontend

theorem formatApiError_ne_empty (e : ApiErrorInfo) (fb : String) (hfb : fb ≠ "") :
    formatApiError e fb ≠ "" := by
  unfold formatApiError
  by_cases hs : statusTruthy e.responseStatus
  · simp only [hs, if_true]
    intro h
    have hlen := congrArg String.length h
    simp only [String.length_append] at hlen
    have h5 : ("HTTP " : String).length = 5 := rfl
    have h0 : ("" : String).length = 0 := rfl
    omega
  · simp only [hs, Bool.false_eq_true, if_false]
    split
    · exact hfb
    · assumption

/-- Claim C10: whenever the frontend's execute request fails at the
transport level (the API call throws), both stored execution results —
the one built in `handleRunTests` of Dashboard.jsx and the one built in
`runExecute` of AnalyzerContext.jsx — are complete report-shaped values
with status "error", a non-empty error message, empty results, and
`execution_time_ms = 0`. -/
theorem C10_failed_execute_stores_error_report (err : ApiErrorInfo) :
    (handleRunTestsCatchPayload err).status = "error"
  ∧ (handleRunTestsCatchPayload err).error ≠ ""
  ∧ (handleRunTestsCatchPayload err).results = []
  ∧ (handleRunTestsCatchPayload err).execution_time_ms = 0
  ∧ (handleRunTestsCatchPayload err).stdout = ""
  ∧ (handleRunTestsCatchPayload err).stderr = ""
  ∧ (runExecuteCatchPayload err).status = "error"
  ∧ (runExecuteCatchPayload err).error ≠ ""
  ∧ (runExecuteCatchPayload err).results = []
  ∧ (runExecuteCatchPayload err).execution_time_ms = 0 :=
  ⟨rfl, formatApiError_ne_empty err "Failed to execute code" (by decide),
   rfl, rfl, rfl, rfl, rfl,
   formatApiError_ne_empty err "Failed to execute code" (by decide),
   rfl, rfl⟩

end Frontend
